import Mathlib

/-!
Verification development for the floor-plan furniture placement engine
(`furniture_placer.py`, `furniture_definitions.py`).

The engine is embedded shallowly over exact rationals:

* Python floats are idealised as `ℚ`.
* A rotation angle in degrees is represented by its rotation vector
  `(cos theta, sin theta) : ℚ × ℚ`; the source only ever rotates by
  `atan2(wy, wx)` of a wall vector (rotation vector `(wx/L, wy/L)` where
  `L` is the wall length) or by such an angle plus 180 degrees (negated
  rotation vector), so this representation is closed under everything the
  source computes.
* Calls to `np.linalg.norm` are modelled by an explicitly supplied scalar
  (`L`, `d`, or a function `Lof` on walls); theorems that depend on the
  value carry the hypothesis `L * L = squared Euclidean norm` (square
  roots of rationals are not rational in general, so the norm cannot be
  computed inside `ℚ`).  Comparisons of a width against a wall length are
  made against that supplied scalar, exactly as the source compares
  against `wall_len`.
* Shapely's polygon predicates are implemented concretely: the area
  centroid by the shoelace formula, `contains` for a point by even-odd
  ray crossing, and `intersects` for the (convex, rectangular) footprint
  polygons by the separating-axis criterion (touching polygons have no
  strictly separating axis, matching shapely's `intersects`, which counts
  boundary contact).
-/

set_option allowUnsafeReducibility true

attribute [semireducible] Rat.add Rat.sub Rat.mul Rat.inv

/-- A 2-D point / vector with exact rational coordinates. -/
abbrev Pt : Type := ℚ × ℚ

/-- A polygon as its list of vertices (shapely `Polygon`). -/
abbrev Pgon : Type := List Pt

/-- Dot product of two vectors. -/
def dotQ (u v : Pt) : ℚ := u.1 * v.1 + u.2 * v.2

/-- Squared Euclidean distance between two points. -/
def sqDistQ (u v : Pt) : ℚ := (u.1 - v.1) ^ 2 + (u.2 - v.2) ^ 2

/-- The directed edges of a polygon, each vertex paired with its successor
(wrapping around), as in `_get_walls`. -/
def edgesOf (P : Pgon) : List (Pt × Pt) := P.zip (P.rotate 1)

/-- Twice the signed area of a polygon (shoelace sum). -/
def shoelace (P : Pgon) : ℚ :=
  (edgesOf P).foldl (fun a e => a + (e.1.1 * e.2.2 - e.2.1 * e.1.2)) 0

/-- Area centroid of a polygon (shapely `.centroid`), by the standard
shoelace formula; degenerate polygons (zero signed area) fall back to the
origin. -/
def polyCentroid (P : Pgon) : Pt :=
  let a := shoelace P
  if a = 0 then (0, 0)
  else
    ((edgesOf P).foldl
        (fun s e => s + (e.1.1 + e.2.1) * (e.1.1 * e.2.2 - e.2.1 * e.1.2)) 0 / (3 * a),
     (edgesOf P).foldl
        (fun s e => s + (e.1.2 + e.2.2) * (e.1.1 * e.2.2 - e.2.1 * e.1.2)) 0 / (3 * a))

/-- Point-in-polygon by even-odd ray crossing (shapely
`room_polygon.contains(point)` for interior points). -/
def containsPoint (P : Pgon) (q : Pt) : Bool :=
  (edgesOf P).foldl
    (fun c e =>
      if (decide (q.2 < e.1.2) != decide (q.2 < e.2.2)) &&
          decide (q.1 < e.1.1 + (q.2 - e.1.2) * (e.2.1 - e.1.1) / (e.2.2 - e.1.2))
      then !c else c)
    false

/-- Outward normal direction of a polygon edge (for separating-axis tests). -/
def edgeNormal (e : Pt × Pt) : Pt := (-(e.2.2 - e.1.2), e.2.1 - e.1.1)

/-- Least projection of a polygon's vertices onto an axis. -/
def projMin (n : Pt) (P : Pgon) : ℚ :=
  match P with
  | [] => 0
  | v :: vs => vs.foldl (fun a w => min a (dotQ n w)) (dotQ n v)

/-- Greatest projection of a polygon's vertices onto an axis. -/
def projMax (n : Pt) (P : Pgon) : ℚ :=
  match P with
  | [] => 0
  | v :: vs => vs.foldl (fun a w => max a (dotQ n w)) (dotQ n v)

/-- Whether an axis strictly separates two polygons. -/
def axisSeparates (n : Pt) (P Q : Pgon) : Bool :=
  decide (projMax n P < projMin n Q) || decide (projMax n Q < projMin n P)

/-- Polygon intersection test (shapely `f_poly.intersects(p)`): two convex
polygons intersect (including boundary contact) iff no edge axis of either
strictly separates them. -/
def intersectsB (P Q : Pgon) : Bool :=
  !(((edgesOf P ++ edgesOf Q).map edgeNormal).any fun n => axisSeparates n P Q)

/-- Rotation vector of a rotation by 180 degrees: adding 180 degrees to an
angle negates its rotation vector. -/
def rot180 : Pt := (-1, 0)

/-- Composition of two rotations given by their rotation vectors (complex
multiplication); models addition of the underlying angles in degrees. -/
def rotAdd (a b : Pt) : Pt := (a.1 * b.1 - a.2 * b.2, a.2 * b.1 + a.1 * b.2)

/-- Rotate a point about the origin by the rotation with vector `r`. -/
def rotPt (r : Pt) (p : Pt) : Pt := (p.1 * r.1 - p.2 * r.2, p.1 * r.2 + p.2 * r.1)

/-- `_get_furniture_polygon`: a `w × h` rectangle centered at the origin,
rotated by the given rotation, then translated to `center`. -/
def furnPoly (w h : ℚ) (r : Pt) (center : Pt) : Pgon :=
  [((-w) / 2, (-h) / 2), (w / 2, (-h) / 2), (w / 2, h / 2), ((-w) / 2, h / 2)].map
    fun p => rotPt r p + center

/-- A furniture instance (`Furniture` in `furniture_definitions.py`); the
angle field is carried as its rotation vector `rot`. -/
structure Furn where
  name : String
  width_px : ℚ
  height_px : ℚ
  position_px : Option (ℤ × ℤ)
  rot : Pt
  essential : Bool
deriving DecidableEq, Repr

/-- Python `int()` applied to a rational: truncation toward zero. -/
def truncQ (x : ℚ) : ℤ := if 0 ≤ x then ⌊x⌋ else ⌈x⌉

/-- The committed position of a placed item read back as rationals
(`np.array(item.position_px)`); unplaced items default to the origin. -/
def furnPosQ (f : Furn) : Pt :=
  match f.position_px with
  | some p => ((p.1 : ℚ), (p.2 : ℚ))
  | none => (0, 0)

/-- Squared length of a wall segment; used as sort key because `sorted by
Euclidean length` and `sorted by squared length` agree (lengths are
nonnegative and squaring is monotone there). -/
def sqLenW (w : Pt × Pt) : ℚ := dotQ (w.2 - w.1) (w.2 - w.1)

/-- Stable insertion into a list already sorted descending by `key`; the
inserted element goes before the first strictly smaller element and after
equal ones only if they were earlier in the original list (matching the
stability of Python `list.sort`). -/
def insertByGE {α : Type} (key : α → ℚ) (x : α) : List α → List α
  | [] => [x]
  | y :: ys => if key y ≤ key x then x :: y :: ys else y :: insertByGE key x ys

/-- Stable descending sort by a rational key (Python
`list.sort(key=..., reverse=True)`). -/
def sortDescBy {α : Type} (key : α → ℚ) : List α → List α
  | [] => []
  | x :: xs => insertByGE key x (sortDescBy key xs)

/-- `_get_walls`: the edges of the bounding box, sorted by Euclidean length
descending (stable). -/
def getWalls (bbox : Pgon) : List (Pt × Pt) := sortDescBy sqLenW (edgesOf bbox)

/-- The rotation vector of the wall angle
`np.rad2deg(np.arctan2(wall_vec[1], wall_vec[0]))`: the unit vector along
the wall, obtained from the supplied wall length `L`. -/
def wallRotOf (wall : Pt × Pt) (L : ℚ) : Pt :=
  ((wall.2 - wall.1).1 / L, (wall.2 - wall.1).2 / L)

/-- `_get_wall_normal`: the perpendicular of the wall vector, normalised
when its norm (`L`, supplied) is positive, flipped to point toward the
room polygon's centroid. -/
def wallNormal (point : Pt) (roomPoly : Pgon) (wv : Pt) (L : ℚ) : Pt :=
  let n0 : Pt := (-wv.2, wv.1)
  let n1 : Pt := if 0 < L then (1 / L) • n0 else n0
  if dotQ n1 (polyCentroid roomPoly - point) < 0 then -n1 else n1

/-- The candidate probe position for fractional offset `t` along a wall:
`pos = wall[0] + wall_vec * t`, then offset into the room by half the
wall-perpendicular extent `f_h` along the inward normal. -/
def posAt (wall : Pt × Pt) (L f_h : ℚ) (roomPoly : Pgon) (t : ℚ) : Pt :=
  let wv := wall.2 - wall.1
  let pos := wall.1 + t • wv
  pos + (f_h / 2) • wallNormal pos roomPoly wv L

/-- The acceptance test shared by `_place_item_on_wall` and
`_place_item_at_pos`: the probe footprint at `pos` must intersect none of
the already placed footprints, and the room polygon must contain the
footprint's centroid. -/
def acceptPose (f_w f_h : ℚ) (r : Pt) (roomPoly : Pgon) (placed : List Pgon)
    (pos : Pt) : Bool :=
  let fp := furnPoly f_w f_h r pos
  !(placed.any fun p => intersectsB fp p) && containsPoint roomPoly (polyCentroid fp)

/-- The in-place commit of a successful wall placement: position is stored
as the integer truncation of the probe position, the angle becomes the
wall angle, and width/height record the chosen orientation. -/
def commitAt (f : Furn) (f_w f_h : ℚ) (r : Pt) (pos : Pt) : Furn :=
  { f with position_px := some (truncQ pos.1, truncQ pos.2), rot := r,
           width_px := f_w, height_px := f_h }

/-- The fixed fractional offsets tried along a wall, in source order
(`for t in [0.5, 0.25, 0.75, 0.1, 0.9]`). -/
def wallOffsets : List ℚ := [1/2, 1/4, 3/4, 1/10, 9/10]

/-- The inner loop of `_place_item_on_wall` over fractional offsets for one
orientation: the first accepted pose is committed and returned together
with its footprint polygon. -/
def tryOffsets (f : Furn) (wall : Pt × Pt) (L f_w f_h : ℚ) (r : Pt)
    (roomPoly : Pgon) (placed : List Pgon) : List ℚ → Option (Furn × Pgon)
  | [] => none
  | t :: ts =>
    let pos := posAt wall L f_h roomPoly t
    if acceptPose f_w f_h r roomPoly placed pos then
      some (commitAt f f_w f_h r pos, furnPoly f_w f_h r pos)
    else tryOffsets f wall L f_w f_h r roomPoly placed ts

/-- The candidate orientations of `_place_item_on_wall`: only the current
one when `fixed_orientation` is set, only one for a square item, otherwise
`(width, height)` then the swap. -/
def orientationsOf (f : Furn) (fixedO : Bool) : List (ℚ × ℚ) :=
  if fixedO then [(f.width_px, f.height_px)]
  else if f.width_px = f.height_px then [(f.width_px, f.height_px)]
  else [(f.width_px, f.height_px), (f.height_px, f.width_px)]

/-- The outer loop of `_place_item_on_wall` over candidate orientations: an
orientation whose wall-parallel extent exceeds the wall length is skipped,
otherwise its offsets are tried; the first success wins. -/
def tryOrientations (f : Furn) (wall : Pt × Pt) (L : ℚ) (roomPoly : Pgon)
    (placed : List Pgon) : List (ℚ × ℚ) → Option (Furn × Pgon)
  | [] => none
  | (f_w, f_h) :: os =>
    if L < f_w then tryOrientations f wall L roomPoly placed os
    else
      match tryOffsets f wall L f_w f_h (wallRotOf wall L) roomPoly placed wallOffsets with
      | some r => some r
      | none => tryOrientations f wall L roomPoly placed os

/-- `_place_item_on_wall`: try to place one item on one wall of length `L`.
On success the returned instance carries the committed (truncated)
position, the wall angle, and the chosen orientation; the returned polygon
is the accepted probe footprint. -/
def placeItemOnWall (f : Furn) (wall : Pt × Pt) (L : ℚ) (roomPoly : Pgon)
    (placed : List Pgon) (fixedO : Bool) : Option (Furn × Pgon) :=
  tryOrientations f wall L roomPoly placed (orientationsOf f fixedO)

/-- The wall sweep of `_place_against_wall` (also used for the bathroom
sink's fixed-orientation sweep): try `_place_item_on_wall` on each wall in
order, returning the first success.  `Lof` supplies each wall's Euclidean
length. -/
def placeOnWalls (f : Furn) (Lof : Pt × Pt → ℚ) (roomPoly : Pgon)
    (placed : List Pgon) (fixedO : Bool) : List (Pt × Pt) → Option (Furn × Pgon)
  | [] => none
  | w :: ws =>
    match placeItemOnWall f w (Lof w) roomPoly placed fixedO with
    | some r => some r
    | none => placeOnWalls f Lof roomPoly placed fixedO ws

/-- `_place_against_wall`: sweep all walls of the room (longest first) with
free orientation. -/
def placeAgainstWall (f : Furn) (bbox : Pgon) (roomPoly : Pgon)
    (placed : List Pgon) (Lof : Pt × Pt → ℚ) : Option (Furn × Pgon) :=
  placeOnWalls f Lof roomPoly placed false (getWalls bbox)

/-- `_place_item_at_pos`: single-pose primitive; on success the position is
committed as the integer truncation of `pos` and the angle as given;
width/height are left unchanged. -/
def placeItemAtPos (f : Furn) (pos : Pt) (r : Pt) (roomPoly : Pgon)
    (placed : List Pgon) : Option (Furn × Pgon) :=
  if acceptPose f.width_px f.height_px r roomPoly placed pos then
    some ({ f with position_px := some (truncQ pos.1, truncQ pos.2), rot := r },
          furnPoly f.width_px f.height_px r pos)
  else none

/-- The probe position of the living room's main sofa
(`_place_in_living_room`, step 4): offset from the television's committed
position along the viewing normal toward the room centroid by half the
sofa's height plus a 100 px buffer.  `d` supplies
`np.linalg.norm(centroid - tv_pos)`; when it is not positive the source
falls back to the normal `(0, 1)`. -/
def sofaProbePos (sofa tv : Furn) (roomPoly : Pgon) (d : ℚ) : Pt :=
  let tvPos := furnPosQ tv
  let vn : Pt :=
    if 0 < d then (1 / d) • (polyCentroid roomPoly - tvPos) else ((0 : ℚ), (1 : ℚ))
  tvPos + (sofa.height_px / 2 + 100) • vn

/-- The explicit main-sofa placement of `_place_in_living_room` (step 4):
place the sofa at the viewing position with the television's angle plus
180 degrees. -/
def placeMainSofa (sofa tv : Furn) (roomPoly : Pgon) (placed : List Pgon)
    (d : ℚ) : Option (Furn × Pgon) :=
  placeItemAtPos sofa (sofaProbePos sofa tv roomPoly d) (rotAdd tv.rot rot180)
    roomPoly placed

/-- Per-room-type placement counters (`placement_stats`). -/
structure Stats where
  attempted : ℕ
  placed : ℕ
  failed : ℕ
deriving DecidableEq, Repr

/-- Counter bumps for an attempted placement. -/
def bumpAttempted (st : Stats) : Stats := { st with attempted := st.attempted + 1 }

/-- Counter bump for a successful placement. -/
def bumpPlaced (st : Stats) : Stats := { st with placed := st.placed + 1 }

/-- Counter bump for a failed placement. -/
def bumpFailed (st : Stats) : Stats := { st with failed := st.failed + 1 }

/-- The forced orientation applied to a bathroom sink before any placement
attempt (`_place_in_bathroom`, sink loop): width becomes the longer side,
height the shorter, mutating the instance in place. -/
def sinkForce (sink : Furn) : Furn :=
  { sink with width_px := max sink.width_px sink.height_px,
              height_px := min sink.width_px sink.height_px }

/-- The per-sink placement step of `_place_in_bathroom`: force the long
side wall-parallel, sweep every wall with `fixed_orientation=True`, and on
failure fall back to `_place_against_wall`; the returned instance is the
(possibly force-reoriented) sink, placed or not. -/
def placeSinkStep (sink : Furn) (bbox : Pgon) (roomPoly : Pgon)
    (placed : List Pgon) (Lof : Pt × Pt → ℚ) (st : Stats) :
    Furn × Option Pgon × Stats :=
  let s1 := sinkForce sink
  let st1 := bumpAttempted st
  match placeOnWalls s1 Lof roomPoly placed true (getWalls bbox) with
  | some (g, p) => (g, some p, bumpPlaced st1)
  | none =>
    match placeAgainstWall s1 bbox roomPoly placed Lof with
    | some (g, p) => (g, some p, bumpPlaced st1)
    | none => (s1, none, bumpFailed st1)

/-- One generic wall-placement pass over a list of items (the loop bodies
of the default strategy and of the bedroom's remaining-furniture step):
each item is attempted once with `_place_against_wall`; successes extend
the placed set, failures only bump the failure counter.  State is
(placed items, placed footprints, stats). -/
def wallSweep (bbox : Pgon) (roomPoly : Pgon) (Lof : Pt × Pt → ℚ) :
    List Furn → List Furn × List Pgon × Stats → List Furn × List Pgon × Stats
  | [], acc => acc
  | f :: fs, (pl, polys, st) =>
    let st1 := bumpAttempted st
    match placeAgainstWall f bbox roomPoly polys Lof with
    | some (g, p) =>
      wallSweep bbox roomPoly Lof fs (pl ++ [g], polys ++ [p], bumpPlaced st1)
    | none => wallSweep bbox roomPoly Lof fs (pl, polys, bumpFailed st1)

/-- The area-descending sort applied before a generic wall pass
(`sort(key=lambda f: f.width_px * f.height_px, reverse=True)`). -/
def sortByAreaDesc (items : List Furn) : List Furn :=
  sortDescBy (fun f => f.width_px * f.height_px) items

/-- The bedside-table probe position (`_place_in_bedroom`, step 3): offset
from the bed's committed position along the bed's perpendicular axis by
half the bed width plus half the table width plus a 5 px gap, on the given
side. -/
def bedsidePos (bed bt : Furn) (side : ℚ) : Pt :=
  furnPosQ bed +
    (side * (bed.width_px / 2 + bt.width_px / 2 + 5)) • ((-bed.rot.2, bed.rot.1) : Pt)

/-- The bedside-table loop of `_place_in_bedroom` (step 3): for each side
in `[-1, 1]`, pop the next pending bedside item (stopping early when none
remain), try the explicit side pose with the bed's angle, fall back to
`_place_against_wall`, and on total failure append the item back onto the
pending list.  State is (pending bedsides, placed items, placed
footprints, stats). -/
def bedsideLoop (bed : Furn) (bbox : Pgon) (roomPoly : Pgon)
    (Lof : Pt × Pt → ℚ) :
    List ℚ → List Furn × List Furn × List Pgon × Stats →
    List Furn × List Furn × List Pgon × Stats
  | [], acc => acc
  | side :: sides, (pending, pl, polys, st) =>
    match pending with
    | [] => ([], pl, polys, st)
    | b :: rest =>
      let st1 := bumpAttempted st
      match placeItemAtPos b (bedsidePos bed b side) bed.rot roomPoly polys with
      | some (g, p) =>
        bedsideLoop bed bbox roomPoly Lof sides
          (rest, pl ++ [g], polys ++ [p], bumpPlaced st1)
      | none =>
        match placeAgainstWall b bbox roomPoly polys Lof with
        | some (g, p) =>
          bedsideLoop bed bbox roomPoly Lof sides
            (rest, pl ++ [g], polys ++ [p], bumpPlaced st1)
        | none =>
          bedsideLoop bed bbox roomPoly Lof sides
            (rest ++ [b], pl, polys, bumpFailed st1)

/-- The bedroom slice relevant to retry behaviour: run the bedside loop
(step 3) for both sides, then feed the still-pending bedside items
together with the other remaining furniture, area-sorted, into the generic
wall pass (step 6). -/
def bedroomBedsideRun (bed : Furn) (bedsides other : List Furn) (bbox : Pgon)
    (roomPoly : Pgon) (Lof : Pt × Pt → ℚ) (polys : List Pgon) (st : Stats) :
    List Furn × List Pgon × Stats :=
  let r := bedsideLoop bed bbox roomPoly Lof [-1, 1] (bedsides, [], polys, st)
  wallSweep bbox roomPoly Lof (sortByAreaDesc (r.1 ++ other)) (r.2.1, r.2.2.1, r.2.2.2)

/-- The `ESSENTIAL_FURNITURE` table of `furniture_definitions.py`; room
types outside the table have no essential categories. -/
def essentialFor (t : String) : List String :=
  if t = "bedroom_master" then ["bed", "study"]
  else if t = "bedroom_guest" then ["singlebed", "study"]
  else if t = "bedroom" then ["singlebed", "study"]
  else if t = "bathroom" then ["bathtub", "sink"]
  else if t = "living_room" then ["sofa", "tv"]
  else []

/-- Number of rooms of a given type (`room_type_count`). -/
def countType (rooms : List String) (t : String) : ℕ := rooms.countP (fun r => r = t)

/-- The distinct room types in first-occurrence order (iteration over the
insertion-ordered `room_type_count` dictionary). -/
def distinctTypes (rooms : List String) : List String :=
  rooms.foldl (fun acc t => if t ∈ acc then acc else acc ++ [t]) []

/-- Point update of a category map (in-place dictionary assignment). -/
def updateMap (m : String → List Furn) (k : String) (v : List Furn) :
    String → List Furn :=
  fun q => if q = k then v else m q

/-- The duplication loop of `ensure_essential_furniture`: while the queue
is shorter than the room count, append a deep copy of its first element
flagged `essential = true`; an empty queue is left untouched. -/
def padCat (q : List Furn) (count : ℕ) : List Furn :=
  match q with
  | [] => []
  | f :: _ => q ++ List.replicate (count - q.length) { f with essential := true }

/-- Process the essential categories of one room type, padding each
category's queue to the type's room count in turn. -/
def processCats (rooms : List String) (t : String) :
    List String → (String → List Furn) → (String → List Furn)
  | [], m => m
  | c :: cs, m =>
    processCats rooms t cs (updateMap m c (padCat (m c) (countType rooms t)))

/-- Process one room type's entry of the room-type count map. -/
def processType (rooms : List String) (t : String) (m : String → List Furn) :
    String → List Furn :=
  processCats rooms t (essentialFor t) m

/-- Iterate `ensure_essential_furniture` over the room types. -/
def ensureTypes (rooms : List String) :
    List String → (String → List Furn) → (String → List Furn)
  | [], m => m
  | t :: ts, m => ensureTypes rooms ts (processType rooms t m)

/-- `ensure_essential_furniture`: for every room type present, pad every
essential category that has at least one instance up to the number of
rooms of that type (with deep copies flagged essential); categories with
no stock are skipped. -/
def ensureEssential (rooms : List String) (protos : String → List Furn) :
    String → List Furn :=
  ensureTypes rooms (distinctTypes rooms) protos

/-- An accepted pose's footprint has its centroid inside the room. -/
theorem acceptPose_contains {f_w f_h : ℚ} {r : Pt} {roomPoly : Pgon}
    {placed : List Pgon} {pos : Pt}
    (h : acceptPose f_w f_h r roomPoly placed pos = true) :
    containsPoint roomPoly (polyCentroid (furnPoly f_w f_h r pos)) = true := by
  simp only [acceptPose, Bool.and_eq_true] at h
  exact h.2

/-- An accepted pose's footprint intersects none of the placed footprints. -/
theorem acceptPose_disjoint {f_w f_h : ℚ} {r : Pt} {roomPoly : Pgon}
    {placed : List Pgon} {pos : Pt}
    (h : acceptPose f_w f_h r roomPoly placed pos = true) :
    ∀ q ∈ placed, intersectsB (furnPoly f_w f_h r pos) q = false := by
  simp only [acceptPose, Bool.and_eq_true, Bool.not_eq_true', List.any_eq_false] at h
  intro q hq
  simpa using h.1 q hq

/-- Characterisation of a successful offset sweep: some offset in the list
was accepted and its pose was committed. -/
theorem tryOffsets_eq_some {f : Furn} {wall : Pt × Pt} {L f_w f_h : ℚ} {r : Pt}
    {roomPoly : Pgon} {placed : List Pgon} {g : Furn} {p : Pgon} :
    ∀ {ts : List ℚ},
      tryOffsets f wall L f_w f_h r roomPoly placed ts = some (g, p) →
      ∃ t ∈ ts,
        acceptPose f_w f_h r roomPoly placed (posAt wall L f_h roomPoly t) = true ∧
        g = commitAt f f_w f_h r (posAt wall L f_h roomPoly t) ∧
        p = furnPoly f_w f_h r (posAt wall L f_h roomPoly t) := by
  intro ts
  induction ts with
  | nil => intro h; simp [tryOffsets] at h
  | cons t ts ih =>
    intro h
    simp only [tryOffsets] at h
    by_cases hacc :
        acceptPose f_w f_h r roomPoly placed (posAt wall L f_h roomPoly t) = true
    · rw [if_pos hacc] at h
      simp only [Option.some.injEq, Prod.mk.injEq] at h
      exact ⟨t, List.mem_cons_self t ts, hacc, h.1.symm, h.2.symm⟩
    · rw [if_neg hacc] at h
      obtain ⟨u, hu, hs⟩ := ih h
      exact ⟨u, List.mem_cons_of_mem t hu, hs⟩

/-- Characterisation of a successful orientation sweep: some orientation in
the list succeeded through the offset sweep. -/
theorem tryOrientations_eq_some {f : Furn} {wall : Pt × Pt} {L : ℚ}
    {roomPoly : Pgon} {placed : List Pgon} {res : Furn × Pgon} :
    ∀ {os : List (ℚ × ℚ)},
      tryOrientations f wall L roomPoly placed os = some res →
      ∃ wh ∈ os,
        tryOffsets f wall L wh.1 wh.2 (wallRotOf wall L) roomPoly placed
          wallOffsets = some res := by
  intro os
  induction os with
  | nil => intro h; simp [tryOrientations] at h
  | cons wh os ih =>
    intro h
    simp only [tryOrientations] at h
    by_cases hw : L < wh.1
    · rw [if_pos hw] at h
      obtain ⟨u, hu, hs⟩ := ih h
      exact ⟨u, List.mem_cons_of_mem wh hu, hs⟩
    · rw [if_neg hw] at h
      rcases hc : tryOffsets f wall L wh.1 wh.2 (wallRotOf wall L) roomPoly placed
          wallOffsets with _ | r1
      · rw [hc] at h
        obtain ⟨u, hu, hs⟩ := ih h
        exact ⟨u, List.mem_cons_of_mem wh hu, hs⟩
      · rw [hc] at h
        exact ⟨wh, List.mem_cons_self wh os, hc ▸ h ▸ rfl⟩

/-- A successful `_place_item_on_wall` call is an accepted commit at some
probe position with the wall's rotation. -/
theorem placeItemOnWall_eq_some {f : Furn} {wall : Pt × Pt} {L : ℚ}
    {roomPoly : Pgon} {placed : List Pgon} {fo : Bool} {g : Furn} {p : Pgon}
    (h : placeItemOnWall f wall L roomPoly placed fo = some (g, p)) :
    ∃ f_w f_h q,
      acceptPose f_w f_h (wallRotOf wall L) roomPoly placed q = true ∧
      g = commitAt f f_w f_h (wallRotOf wall L) q ∧
      p = furnPoly f_w f_h (wallRotOf wall L) q := by
  obtain ⟨wh, _, hs⟩ := tryOrientations_eq_some h
  obtain ⟨t, _, hacc, hg, hp⟩ := tryOffsets_eq_some hs
  exact ⟨wh.1, wh.2, posAt wall L wh.2 roomPoly t, hacc, hg, hp⟩

/-- A successful `_place_item_at_pos` call is an accepted commit at the
given pose. -/
theorem placeItemAtPos_eq_some {f : Furn} {pos r : Pt} {roomPoly : Pgon}
    {placed : List Pgon} {g : Furn} {p : Pgon}
    (h : placeItemAtPos f pos r roomPoly placed = some (g, p)) :
    acceptPose f.width_px f.height_px r roomPoly placed pos = true ∧
    g = { f with position_px := some (truncQ pos.1, truncQ pos.2), rot := r } ∧
    p = furnPoly f.width_px f.height_px r pos := by
  by_cases hacc : acceptPose f.width_px f.height_px r roomPoly placed pos = true
  · simp only [placeItemAtPos] at h
    rw [if_pos hacc] at h
    simp only [Option.some.injEq, Prod.mk.injEq] at h
    exact ⟨hacc, h.1.symm, h.2.symm⟩
  · simp [placeItemAtPos, hacc] at h

/-- A 400 x 300 rectangular room used in the concrete scenarios. -/
def roomRect43 : Pgon := [(0, 0), (400, 0), (400, 300), (0, 300)]

/-- Euclidean wall lengths of `roomRect43` (400 for the long walls, 300 for
the short ones). -/
def lenRect43 : Pt × Pt → ℚ := fun w => if sqLenW w = 160000 then 400 else 300

/-- A 180 x 120 bed item, unplaced. -/
def bedRect : Furn := ⟨"bed", 180, 120, none, (1, 0), false⟩

/-- The bed after the scenario placement at (200, 60) with angle 0. -/
def bedPlaced : Furn := ⟨"bed", 180, 120, some (200, 60), (1, 0), false⟩

/-- The bed's accepted footprint in the scenario placement. -/
def bedFoot : Pgon := furnPoly 180 120 (1, 0) ((200 : ℚ), (60 : ℚ))

/-- C1: every item committed by a successful placement — through the
wall-fit search `_place_item_on_wall` or the explicit-pose primitive
`_place_item_at_pos` — has the centroid of its accepted footprint polygon
inside the room polygon used for the placement run (the acceptance test
requires `room_polygon.contains(f_poly.centroid)`). -/
theorem placed_centroid_in_room :
    (∀ (f : Furn) (pos r : Pt) (roomPoly : Pgon) (placed : List Pgon)
        (g : Furn) (p : Pgon),
        placeItemAtPos f pos r roomPoly placed = some (g, p) →
        containsPoint roomPoly (polyCentroid p) = true) ∧
    (∀ (f : Furn) (wall : Pt × Pt) (L : ℚ) (roomPoly : Pgon)
        (placed : List Pgon) (fo : Bool) (g : Furn) (p : Pgon),
        placeItemOnWall f wall L roomPoly placed fo = some (g, p) →
        containsPoint roomPoly (polyCentroid p) = true) := by
  constructor
  · intro f pos r roomPoly placed g p h
    obtain ⟨hacc, _, hp⟩ := placeItemAtPos_eq_some h
    rw [hp]
    exact acceptPose_contains hacc
  · intro f wall L roomPoly placed fo g p h
    obtain ⟨fw, fh, q, hacc, _, hp⟩ := placeItemOnWall_eq_some h
    rw [hp]
    exact acceptPose_contains hacc

/-- Witness for C1: placing the 180 x 120 bed at (200, 60) in the 400 x 300
room succeeds, and the accepted footprint's centroid is inside the room. -/
theorem placed_centroid_in_room_witness :
    containsPoint roomRect43 (polyCentroid bedFoot) = true :=
  placed_centroid_in_room.1 bedRect ((200 : ℚ), (60 : ℚ)) ((1 : ℚ), (0 : ℚ))
    roomRect43 [] bedPlaced bedFoot (by decide)

/-- The separating-axis intersection test is symmetric. -/
theorem intersectsB_comm (P Q : Pgon) : intersectsB P Q = intersectsB Q P := by
  have hax : (fun n => axisSeparates n P Q) = fun n => axisSeparates n Q P :=
    funext fun n => Bool.or_comm _ _
  simp only [intersectsB, List.map_append, List.any_append, hax]
  rw [Bool.or_comm]

/-- Pairwise disjointness of a room's accumulated footprints. -/
def NoOverlap (l : List Pgon) : Prop := l.Pairwise fun p q => intersectsB p q = false

/-- Appending a footprint that intersects none of the placed ones keeps the
placed set pairwise disjoint. -/
theorem noOverlap_append {placed : List Pgon} {p : Pgon} (h : NoOverlap placed)
    (hd : ∀ q ∈ placed, intersectsB p q = false) : NoOverlap (placed ++ [p]) := by
  unfold NoOverlap at *
  rw [List.pairwise_append]
  refine ⟨h, List.pairwise_singleton _ _, ?_⟩
  intro a ha b hb
  rw [List.mem_singleton] at hb
  subst hb
  rw [intersectsB_comm]
  exact hd a ha

/-- C2: placements accepted by either primitive preserve pairwise
non-intersection of the room's placed footprints — a pose is accepted only
if its probe footprint intersects none of the already accumulated
footprints, so any two footprints in the extended placed set are
disjoint. -/
theorem placed_footprints_disjoint :
    (∀ (f : Furn) (pos r : Pt) (roomPoly : Pgon) (placed : List Pgon)
        (g : Furn) (p : Pgon), NoOverlap placed →
        placeItemAtPos f pos r roomPoly placed = some (g, p) →
        NoOverlap (placed ++ [p])) ∧
    (∀ (f : Furn) (wall : Pt × Pt) (L : ℚ) (roomPoly : Pgon)
        (placed : List Pgon) (fo : Bool) (g : Furn) (p : Pgon),
        NoOverlap placed →
        placeItemOnWall f wall L roomPoly placed fo = some (g, p) →
        NoOverlap (placed ++ [p])) := by
  constructor
  · intro f pos r roomPoly placed g p hno h
    obtain ⟨hacc, _, hp⟩ := placeItemAtPos_eq_some h
    rw [hp]
    exact noOverlap_append hno (acceptPose_disjoint hacc)
  · intro f wall L roomPoly placed fo g p hno h
    obtain ⟨fw, fh, q, hacc, _, hp⟩ := placeItemOnWall_eq_some h
    rw [hp]
    exact noOverlap_append hno (acceptPose_disjoint hacc)

/-- A 400 x 400 square room for the living room scenarios. -/
def roomSq400 : Pgon := [(0, 0), (400, 0), (400, 400), (0, 400)]

/-- A television already committed at (200, 10) with angle 0. -/
def tvPlaced : Furn := ⟨"tv", 40, 20, some (200, 10), (1, 0), false⟩

/-- The television's accepted footprint. -/
def tvFoot : Pgon := furnPoly 40 20 (1, 0) ((200 : ℚ), (10 : ℚ))

/-- A 100 x 81 sofa, unplaced. -/
def sofa81 : Furn := ⟨"sofa", 100, 81, none, (1, 0), false⟩

/-- The sofa's probe footprint at the viewing position (200, 150.5) with
angle 180. -/
def sofaFootC : Pgon := furnPoly 100 81 ((-1 : ℚ), (0 : ℚ)) ((200 : ℚ), (301 / 2 : ℚ))

/-- The sofa as committed by the scenario placement: truncated position
(200, 150), angle 180. -/
def sofaPlacedC : Furn := ⟨"sofa", 100, 81, some (200, 150), (-1, 0), false⟩

/-- Witness for C2: with the television's footprint already placed, the
sofa's explicit placement succeeds and the two accumulated footprints are
pairwise disjoint. -/
theorem placed_footprints_disjoint_witness : NoOverlap ([tvFoot] ++ [sofaFootC]) :=
  placed_footprints_disjoint.1 sofa81 ((200 : ℚ), (301 / 2 : ℚ))
    ((-1 : ℚ), (0 : ℚ)) roomSq400 [tvFoot] sofaPlacedC sofaFootC
    (by simp [NoOverlap]) (by decide)

/-- C7: the orientation candidates of the wall-fit search: a square item
yields exactly one candidate (the swapped duplicate is dropped), a
non-square item without fixed orientation yields exactly the two
candidates `(width, height)` then `(height, width)`; `_place_item_on_wall`
iterates exactly this list. -/
theorem wallfit_orientation_candidates :
    ∀ (f : Furn),
      (f.width_px = f.height_px →
        orientationsOf f false = [(f.width_px, f.height_px)]) ∧
      (f.width_px ≠ f.height_px →
        orientationsOf f false = [(f.width_px, f.height_px), (f.height_px, f.width_px)]) ∧
      (∀ (wall : Pt × Pt) (L : ℚ) (roomPoly : Pgon) (placed : List Pgon) (fo : Bool),
        placeItemOnWall f wall L roomPoly placed fo =
          tryOrientations f wall L roomPoly placed (orientationsOf f fo)) := by
  intro f
  refine ⟨fun h => ?_, fun h => ?_, fun _ _ _ _ _ => rfl⟩
  · simp [orientationsOf, h]
  · simp [orientationsOf, h]

/-- Witness for C7: a 90 x 90 square item has one candidate orientation,
and a 180 x 120 item has the two in source order. -/
theorem wallfit_orientation_candidates_witness :
    orientationsOf ⟨"table", 90, 90, none, (1, 0), false⟩ false = [(90, 90)] ∧
    orientationsOf bedRect false = [(180, 120), (120, 180)] :=
  ⟨(wallfit_orientation_candidates ⟨"table", 90, 90, none, (1, 0), false⟩).1 rfl,
   (wallfit_orientation_candidates bedRect).2.1 (by decide)⟩

/-- Truncation toward zero moves a rational by strictly less than one. -/
theorem truncQ_close (x : ℚ) : |x - (truncQ x : ℚ)| < 1 := by
  unfold truncQ
  by_cases h : 0 ≤ x
  · have h1 := Int.floor_le x
    have h2 := Int.lt_floor_add_one x
    rw [if_pos h, abs_lt]
    constructor <;> linarith
  · have h1 := Int.le_ceil x
    have h2 := Int.ceil_lt_add_one x
    rw [if_neg h, abs_lt]
    constructor <;> linarith

/-- C10: every committed position has integer coordinates: on success both
primitives store the coordinatewise integer truncation of the probe
position, each coordinate moving by strictly less than one unit, while the
collision and centroid tests were evaluated on the footprint built at the
untruncated probe position (the returned polygon). -/
theorem committed_position_truncated :
    (∀ (f : Furn) (pos r : Pt) (roomPoly : Pgon) (placed : List Pgon)
        (g : Furn) (p : Pgon),
        placeItemAtPos f pos r roomPoly placed = some (g, p) →
        g.position_px = some (truncQ pos.1, truncQ pos.2) ∧
        |pos.1 - (truncQ pos.1 : ℚ)| < 1 ∧ |pos.2 - (truncQ pos.2 : ℚ)| < 1 ∧
        p = furnPoly f.width_px f.height_px r pos ∧
        acceptPose f.width_px f.height_px r roomPoly placed pos = true) ∧
    (∀ (f : Furn) (wall : Pt × Pt) (L : ℚ) (roomPoly : Pgon)
        (placed : List Pgon) (fo : Bool) (g : Furn) (p : Pgon),
        placeItemOnWall f wall L roomPoly placed fo = some (g, p) →
        ∃ q : Pt,
          g.position_px = some (truncQ q.1, truncQ q.2) ∧
          |q.1 - (truncQ q.1 : ℚ)| < 1 ∧ |q.2 - (truncQ q.2 : ℚ)| < 1 ∧
          p = furnPoly g.width_px g.height_px g.rot q ∧
          acceptPose g.width_px g.height_px g.rot roomPoly placed q = true) := by
  constructor
  · intro f pos r roomPoly placed g p h
    obtain ⟨hacc, hg, hp⟩ := placeItemAtPos_eq_some h
    subst hg
    exact ⟨rfl, truncQ_close pos.1, truncQ_close pos.2, hp, hacc⟩
  · intro f wall L roomPoly placed fo g p h
    obtain ⟨fw, fh, q, hacc, hg, hp⟩ := placeItemOnWall_eq_some h
    subst hg
    exact ⟨q, rfl, truncQ_close q.1, truncQ_close q.2, hp, hacc⟩

/-- Witness for C10: placing the sofa at the fractional probe position
(200, 150.5) commits the truncated position (200, 150) while the accepted
footprint sits at the untruncated probe. -/
theorem committed_position_truncated_witness :
    sofaPlacedC.position_px =
        some (truncQ (200 : ℚ), truncQ (301 / 2 : ℚ)) ∧
      |(200 : ℚ) - (truncQ (200 : ℚ) : ℚ)| < 1 ∧
      |(301 / 2 : ℚ) - (truncQ (301 / 2 : ℚ) : ℚ)| < 1 ∧
      sofaFootC = furnPoly sofa81.width_px sofa81.height_px
          ((-1 : ℚ), (0 : ℚ)) ((200 : ℚ), (301 / 2 : ℚ)) ∧
      acceptPose sofa81.width_px sofa81.height_px ((-1 : ℚ), (0 : ℚ))
          roomSq400 [tvFoot] ((200 : ℚ), (301 / 2 : ℚ)) = true :=
  committed_position_truncated.1 sofa81 ((200 : ℚ), (301 / 2 : ℚ))
    ((-1 : ℚ), (0 : ℚ)) roomSq400 [tvFoot] sofaPlacedC sofaFootC (by decide)

/-- First-accepted-offset characterisation of the offset sweep: a success
comes from the first offset in the list whose pose is accepted; all
earlier offsets were rejected. -/
theorem tryOffsets_first_accept {f : Furn} {wall : Pt × Pt} {L f_w f_h : ℚ}
    {r : Pt} {roomPoly : Pgon} {placed : List Pgon} {g : Furn} {p : Pgon} :
    ∀ {ts : List ℚ},
      tryOffsets f wall L f_w f_h r roomPoly placed ts = some (g, p) →
      ∃ n t, ts.get? n = some t ∧
        acceptPose f_w f_h r roomPoly placed (posAt wall L f_h roomPoly t) = true ∧
        g = commitAt f f_w f_h r (posAt wall L f_h roomPoly t) ∧
        p = furnPoly f_w f_h r (posAt wall L f_h roomPoly t) ∧
        ∀ u ∈ ts.take n,
          acceptPose f_w f_h r roomPoly placed (posAt wall L f_h roomPoly u) = false := by
  intro ts
  induction ts with
  | nil => intro h; simp [tryOffsets] at h
  | cons t ts ih =>
    intro h
    simp only [tryOffsets] at h
    by_cases hacc :
        acceptPose f_w f_h r roomPoly placed (posAt wall L f_h roomPoly t) = true
    · rw [if_pos hacc] at h
      simp only [Option.some.injEq, Prod.mk.injEq] at h
      exact ⟨0, t, rfl, hacc, h.1.symm, h.2.symm, by simp⟩
    · rw [if_neg hacc] at h
      obtain ⟨n, u, hget, hu, hg, hp, hearlier⟩ := ih h
      refine ⟨n + 1, u, hget, hu, hg, hp, ?_⟩
      intro v hv
      rw [List.take_succ_cons, List.mem_cons] at hv
      rcases hv with hv | hv
      · subst hv
        exact Bool.not_eq_true _ ▸ (by simpa using hacc)
      · exact hearlier v hv

/-- C9: the wall-fit search is deterministic — it is a pure function of
the furniture dimensions, wall, supplied wall length, room polygon and
placed set — the fractional offsets are tried in the fixed source order
0.5, 0.25, 0.75, 0.1, 0.9, and a success commits the pose of the first
accepted offset, all earlier offsets having been rejected. -/
theorem wallfit_deterministic :
    wallOffsets = [1/2, 1/4, 3/4, 1/10, 9/10] ∧
    (∀ (f : Furn) (wall : Pt × Pt) (L : ℚ) (roomPoly : Pgon)
        (placed1 placed2 : List Pgon) (fo : Bool), placed1 = placed2 →
        placeItemOnWall f wall L roomPoly placed1 fo =
          placeItemOnWall f wall L roomPoly placed2 fo) ∧
    (∀ (f : Furn) (wall : Pt × Pt) (L f_w f_h : ℚ) (r : Pt) (roomPoly : Pgon)
        (placed : List Pgon) (g : Furn) (p : Pgon),
      tryOffsets f wall L f_w f_h r roomPoly placed wallOffsets = some (g, p) →
      ∃ n t, wallOffsets.get? n = some t ∧
        acceptPose f_w f_h r roomPoly placed (posAt wall L f_h roomPoly t) = true ∧
        g = commitAt f f_w f_h r (posAt wall L f_h roomPoly t) ∧
        p = furnPoly f_w f_h r (posAt wall L f_h roomPoly t) ∧
        ∀ u ∈ wallOffsets.take n,
          acceptPose f_w f_h r roomPoly placed (posAt wall L f_h roomPoly u) = false) := by
  refine ⟨rfl, fun f wall L roomPoly placed1 placed2 fo h => by rw [h], ?_⟩
  intro f wall L f_w f_h r roomPoly placed g p h
  exact tryOffsets_first_accept h

/-- Witness for C9: the scenario bed placement on the long wall succeeds at
the first offset 0.5, with every earlier (none) offset rejected. -/
theorem wallfit_deterministic_witness :
    ∃ n t, wallOffsets.get? n = some t ∧
      acceptPose 180 120 ((1 : ℚ), (0 : ℚ)) roomRect43 []
        (posAt (((0 : ℚ), (0 : ℚ)), ((400 : ℚ), (0 : ℚ))) 400 120 roomRect43 t) = true ∧
      bedPlaced = commitAt bedRect 180 120 ((1 : ℚ), (0 : ℚ))
        (posAt (((0 : ℚ), (0 : ℚ)), ((400 : ℚ), (0 : ℚ))) 400 120 roomRect43 t) ∧
      bedFoot = furnPoly 180 120 ((1 : ℚ), (0 : ℚ))
        (posAt (((0 : ℚ), (0 : ℚ)), ((400 : ℚ), (0 : ℚ))) 400 120 roomRect43 t) ∧
      ∀ u ∈ wallOffsets.take n,
        acceptPose 180 120 ((1 : ℚ), (0 : ℚ)) roomRect43 []
          (posAt (((0 : ℚ), (0 : ℚ)), ((400 : ℚ), (0 : ℚ))) 400 120 roomRect43 u) = false :=
  wallfit_deterministic.2.2 bedRect (((0 : ℚ), (0 : ℚ)), ((400 : ℚ), (0 : ℚ)))
    400 180 120 ((1 : ℚ), (0 : ℚ)) roomRect43 [] bedPlaced bedFoot (by decide)

/-- The longest wall of the 400 x 300 scenario room (first edge of the
bounding box). -/
def longWall43 : Pt × Pt := (((0 : ℚ), (0 : ℚ)), ((400 : ℚ), (0 : ℚ)))

/-- C5: in the 400 x 300 rectangular room with a single 180 x 120 item and
an empty placed set, `_place_against_wall` succeeds; the walls are sorted
longest first with the 400-length wall at the head, the committed pose is
the offset-0.5 probe of that longest wall (which needs no truncation), the
committed angle is that wall's angle, and the committed width — the
wall-parallel extent — is the 180-unit side.  The supplied length function
agrees with the Euclidean norm on every wall. -/
theorem scenario_bed_longest_wall :
    placeAgainstWall bedRect roomRect43 roomRect43 [] lenRect43 =
        some (bedPlaced, bedFoot) ∧
    (getWalls roomRect43).head? = some longWall43 ∧
    ((edgesOf roomRect43).all fun w => decide (sqLenW w ≤ sqLenW longWall43)) = true ∧
    ((getWalls roomRect43).all fun w =>
      decide (lenRect43 w * lenRect43 w = sqLenW w) && decide (0 ≤ lenRect43 w)) = true ∧
    posAt longWall43 400 120 roomRect43 (1 / 2) = ((200 : ℚ), (60 : ℚ)) ∧
    bedPlaced.position_px =
      some (truncQ (posAt longWall43 400 120 roomRect43 (1 / 2)).1,
            truncQ (posAt longWall43 400 120 roomRect43 (1 / 2)).2) ∧
    bedPlaced.rot = wallRotOf longWall43 400 ∧
    bedPlaced.width_px = 180 ∧ bedPlaced.height_px = 120 := by
  decide

/-- C4 counterexample: in a 400 x 400 room with the television committed at
(200, 10) with angle 0 (distance 190 from the centroid (200, 200)), the
100 x 81 main sofa's explicit placement succeeds, but its committed
position (200, 150) — the integer truncation of the probe (200, 150.5) —
is not at distance sofa.height/2 + 100 = 140.5 from the television: the
claim's exact-distance statement fails on the committed pose. -/
theorem sofa_distance_counterexample :
    (0 : ℚ) < 190 ∧
    (190 : ℚ) * 190 = sqDistQ (polyCentroid roomSq400) (furnPosQ tvPlaced) ∧
    placeMainSofa sofa81 tvPlaced roomSq400 [tvFoot] 190 =
      some (sofaPlacedC, sofaFootC) ∧
    sofaPlacedC.position_px = some (200, 150) ∧
    sqDistQ (furnPosQ sofaPlacedC) (furnPosQ tvPlaced) ≠
      (sofa81.height_px / 2 + 100) ^ 2 := by
  decide

/-- C4 amended: when the main sofa's explicit placement succeeds, its
committed angle is exactly the television's angle plus 180 degrees, and
its committed position is the coordinatewise integer truncation of the
probe point that lies on the ray from the television toward the room
centroid at distance exactly sofa.height/2 + 100 (so each committed
coordinate is within one unit of that exact point). -/
theorem sofa_viewing_pose (sofa tv : Furn) (roomPoly : Pgon)
    (placed : List Pgon) (d : ℚ) (g : Furn) (p : Pgon)
    (hd : 0 < d)
    (hnorm : d * d = sqDistQ (polyCentroid roomPoly) (furnPosQ tv))
    (hh : 0 ≤ sofa.height_px)
    (h : placeMainSofa sofa tv roomPoly placed d = some (g, p)) :
    g.rot = rotAdd tv.rot rot180 ∧
    g.position_px = some (truncQ (sofaProbePos sofa tv roomPoly d).1,
                          truncQ (sofaProbePos sofa tv roomPoly d).2) ∧
    sqDistQ (sofaProbePos sofa tv roomPoly d) (furnPosQ tv) =
      (sofa.height_px / 2 + 100) ^ 2 ∧
    ∃ k : ℚ, 0 ≤ k ∧
      sofaProbePos sofa tv roomPoly d - furnPosQ tv =
        k • (polyCentroid roomPoly - furnPosQ tv) := by
  obtain ⟨hacc, hg, hp⟩ := placeItemAtPos_eq_some h
  subst hg
  have hd0 : d ≠ 0 := ne_of_gt hd
  refine ⟨rfl, rfl, ?_, ?_⟩
  · rcases hc : polyCentroid roomPoly with ⟨c1, c2⟩
    rcases hP : furnPosQ tv with ⟨P1, P2⟩
    rw [hc, hP] at hnorm
    simp only [sofaProbePos, hc, hP, if_pos hd, sqDistQ, Prod.smul_mk, Prod.mk_add_mk,
      Prod.mk_sub_mk, smul_eq_mul] at *
    field_simp
    ring_nf
    ring_nf at hnorm
    nlinarith [hnorm]
  · refine ⟨(sofa.height_px / 2 + 100) / d, by positivity, ?_⟩
    rcases hc : polyCentroid roomPoly with ⟨c1, c2⟩
    rcases hP : furnPosQ tv with ⟨P1, P2⟩
    simp only [sofaProbePos, hc, hP, if_pos hd, Prod.smul_mk, Prod.mk_add_mk,
      Prod.mk_sub_mk, smul_eq_mul, Prod.mk.injEq]
    constructor <;> · field_simp; ring

/-- Witness for the amended C4: the scenario sofa placement commits angle
180 (the television's 0 plus 180) and the truncation of the probe on the
viewing ray at distance 140.5. -/
theorem sofa_viewing_pose_witness :
    sofaPlacedC.rot = rotAdd tvPlaced.rot rot180 ∧
    sofaPlacedC.position_px =
      some (truncQ (sofaProbePos sofa81 tvPlaced roomSq400 190).1,
            truncQ (sofaProbePos sofa81 tvPlaced roomSq400 190).2) ∧
    sqDistQ (sofaProbePos sofa81 tvPlaced roomSq400 190) (furnPosQ tvPlaced) =
      (sofa81.height_px / 2 + 100) ^ 2 ∧
    ∃ k : ℚ, 0 ≤ k ∧
      sofaProbePos sofa81 tvPlaced roomSq400 190 - furnPosQ tvPlaced =
        k • (polyCentroid roomSq400 - furnPosQ tvPlaced) :=
  sofa_viewing_pose sofa81 tvPlaced roomSq400 [tvFoot] 190 sofaPlacedC sofaFootC
    (by decide) (by decide) (by decide) (by decide)

/-- A 50 x 80 bathroom sink, unplaced, in its original orientation. -/
def sinkProto : Furn := ⟨"sink", 50, 80, none, (1, 0), false⟩

/-- A 10 x 10 room too small for the sink on any wall. -/
def tinyRoom : Pgon := [(0, 0), (10, 0), (10, 10), (0, 10)]

/-- Euclidean wall lengths of `tinyRoom` (every wall has length 10). -/
def lenTiny : Pt × Pt → ℚ := fun _ => 10

/-- C3 counterexample: in the 10 x 10 room every placement attempt for the
50 x 80 sink fails (every wall is too short in both orientations), so the
sink stays unplaced with a null position — yet its width/height have been
mutated by the strategy's forced-orientation step (width 80 instead of the
original 50), contradicting the claim that a never-placed instance retains
its original width/height through the run. -/
theorem sink_mutated_without_placement :
    ((edgesOf tinyRoom).all fun w =>
      decide (lenTiny w * lenTiny w = sqLenW w) && decide (0 ≤ lenTiny w)) = true ∧
    (placeSinkStep sinkProto tinyRoom tinyRoom [] lenTiny ⟨0, 0, 0⟩).2.1 = none ∧
    (placeSinkStep sinkProto tinyRoom tinyRoom [] lenTiny ⟨0, 0, 0⟩).1.position_px = none ∧
    (placeSinkStep sinkProto tinyRoom tinyRoom [] lenTiny ⟨0, 0, 0⟩).1.width_px ≠
      sinkProto.width_px := by
  decide

/-- C3 amended: position and angle are mutated only by a successful
placement call — when every attempt of the bathroom sink step fails, the
returned instance still has its original (null) position and angle — but
the width/height fields are reassigned by the strategy's forced
orientation (long side to width) even though the item was never placed. -/
theorem sink_failure_frame (sink : Furn) (bbox roomPoly : Pgon)
    (placed : List Pgon) (Lof : Pt × Pt → ℚ) (st : Stats)
    (h : (placeSinkStep sink bbox roomPoly placed Lof st).2.1 = none) :
    (placeSinkStep sink bbox roomPoly placed Lof st).1.position_px =
        sink.position_px ∧
    (placeSinkStep sink bbox roomPoly placed Lof st).1.rot = sink.rot ∧
    (placeSinkStep sink bbox roomPoly placed Lof st).1.width_px =
        max sink.width_px sink.height_px ∧
    (placeSinkStep sink bbox roomPoly placed Lof st).1.height_px =
        min sink.width_px sink.height_px := by
  rcases h1 : placeOnWalls (sinkForce sink) Lof roomPoly placed true (getWalls bbox)
      with _ | ⟨g, p⟩
  · rcases h2 : placeAgainstWall (sinkForce sink) bbox roomPoly placed Lof
        with _ | ⟨g2, p2⟩
    · simp only [placeSinkStep]
      rw [h1, h2]
      simp [sinkForce]
    · rw [placeSinkStep] at h
      rw [h1, h2] at h
      simp at h
  · rw [placeSinkStep] at h
    rw [h1] at h
    simp at h

/-- Witness for the amended C3: the failed tiny-room sink run keeps the
null position and original angle while forcing the long side to width. -/
theorem sink_failure_frame_witness :
    (placeSinkStep sinkProto tinyRoom tinyRoom [] lenTiny ⟨0, 0, 0⟩).1.position_px =
        sinkProto.position_px ∧
    (placeSinkStep sinkProto tinyRoom tinyRoom [] lenTiny ⟨0, 0, 0⟩).1.rot =
        sinkProto.rot ∧
    (placeSinkStep sinkProto tinyRoom tinyRoom [] lenTiny ⟨0, 0, 0⟩).1.width_px =
        max sinkProto.width_px sinkProto.height_px ∧
    (placeSinkStep sinkProto tinyRoom tinyRoom [] lenTiny ⟨0, 0, 0⟩).1.height_px =
        min sinkProto.width_px sinkProto.height_px :=
  sink_failure_frame sinkProto tinyRoom tinyRoom [] lenTiny ⟨0, 0, 0⟩ (by decide)

/-- A 500 x 500 bedside table that cannot fit in the 400 x 300 room. -/
def hugeBedside : Furn := ⟨"bedside", 500, 500, none, (1, 0), false⟩

/-- C8 counterexample: in the 400 x 300 bedroom with the bed placed at
(200, 60), a single unplaceable bedside table fails its side pose and the
full `_place_against_wall` sweep in the first side iteration, but is
appended back to the pending list; the second side iteration attempts it
again (attempted = 2 after the loop), and the remaining-furniture pass
attempts it a third time (attempted = 3 in total for one item), so an item
whose any-wall driver failed on every wall is retried later in the same
room's run. -/
theorem bedside_retried_counterexample :
    (bedsideLoop bedPlaced roomRect43 roomRect43 lenRect43 [-1, 1]
        ([hugeBedside], [], [bedFoot], ⟨0, 0, 0⟩)).1 = [hugeBedside] ∧
    (bedsideLoop bedPlaced roomRect43 roomRect43 lenRect43 [-1, 1]
        ([hugeBedside], [], [bedFoot], ⟨0, 0, 0⟩)).2.2.2 = ⟨2, 0, 2⟩ ∧
    (bedroomBedsideRun bedPlaced [hugeBedside] [] roomRect43 roomRect43
        lenRect43 [bedFoot] ⟨0, 0, 0⟩).2.2 = ⟨3, 0, 3⟩ ∧
    (bedroomBedsideRun bedPlaced [hugeBedside] [] roomRect43 roomRect43
        lenRect43 [bedFoot] ⟨0, 0, 0⟩).1 = [] := by
  decide

/-- C8 amended: in a single generic wall pass (the default strategy's loop
and the bedroom's remaining-furniture step) every item is attempted
exactly once — the attempted counter grows by the number of items, each
item is resolved as placed or failed exactly once, and the placed-item
list grows by exactly the number of successes; an item the sweep fails is
simply absent from the result.  Only the bedroom's bedside step re-queues
a failed item for later attempts. -/
theorem wall_sweep_single_attempt (bbox roomPoly : Pgon) (Lof : Pt × Pt → ℚ) :
    ∀ (items : List Furn) (pl : List Furn) (polys : List Pgon) (st : Stats),
      (wallSweep bbox roomPoly Lof items (pl, polys, st)).2.2.attempted =
          st.attempted + items.length ∧
      (wallSweep bbox roomPoly Lof items (pl, polys, st)).2.2.placed +
          (wallSweep bbox roomPoly Lof items (pl, polys, st)).2.2.failed =
          st.placed + st.failed + items.length ∧
      (wallSweep bbox roomPoly Lof items (pl, polys, st)).1.length + st.placed =
          pl.length + (wallSweep bbox roomPoly Lof items (pl, polys, st)).2.2.placed := by
  intro items
  induction items with
  | nil => intro pl polys st; simp [wallSweep]
  | cons f fs ih =>
    intro pl polys st
    simp only [wallSweep]
    rcases h : placeAgainstWall f bbox roomPoly polys Lof with _ | ⟨g, p⟩
    · have hrec := ih pl polys (bumpFailed (bumpAttempted st))
      simp only [bumpFailed, bumpAttempted] at hrec ⊢
      simp only [List.length_cons]
      omega
    · have hrec := ih (pl ++ [g]) (polys ++ [p]) (bumpPlaced (bumpAttempted st))
      simp only [bumpPlaced, bumpAttempted, List.length_append, List.length_cons,
        List.length_nil] at hrec ⊢
      omega

/-- Updating a map reads back the new value at the updated key. -/
theorem updateMap_self (m : String → List Furn) (k : String) (v : List Furn) :
    updateMap m k v k = v := by
  simp [updateMap]

/-- Updating a map leaves other keys unchanged. -/
theorem updateMap_ne (m : String → List Furn) (k : String) (v : List Furn)
    (q : String) (h : q ≠ k) : updateMap m k v q = m q := by
  simp [updateMap, h]

/-- The duplication loop never shortens a queue. -/
theorem padCat_len_mono (q : List Furn) (c : ℕ) : q.length ≤ (padCat q c).length := by
  cases q with
  | nil => simp [padCat]
  | cons f fs => simp [padCat]

/-- The duplication loop pads a nonempty queue to at least the room count. -/
theorem padCat_len_ge (q : List Furn) (c : ℕ) (h : q ≠ []) :
    c ≤ (padCat q c).length := by
  cases q with
  | nil => exact absurd rfl h
  | cons f fs =>
    simp [padCat]
    omega

/-- The duplication loop leaves an empty queue empty. -/
theorem padCat_nil (c : ℕ) : padCat [] c = [] := rfl

/-- The duplication loop keeps a nonempty queue nonempty. -/
theorem padCat_ne_nil (q : List Furn) (c : ℕ) (h : q ≠ []) : padCat q c ≠ [] := by
  cases q with
  | nil => exact absurd rfl h
  | cons f fs => simp [padCat]

/-- Every element of a padded queue is an original element or flagged
essential. -/
theorem padCat_mem (q : List Furn) (c : ℕ) (g : Furn) (h : g ∈ padCat q c) :
    g ∈ q ∨ g.essential = true := by
  cases q with
  | nil => simp [padCat] at h
  | cons f fs =>
    rw [padCat, List.mem_append] at h
    rcases h with h | h
    · exact Or.inl h
    · right
      rw [List.eq_of_mem_replicate h]

/-- Processing a type's essential categories never shortens any queue. -/
theorem processCats_len_mono (rooms : List String) (t : String) :
    ∀ (cs : List String) (m : String → List Furn) (cat : String),
      (m cat).length ≤ (processCats rooms t cs m cat).length := by
  intro cs
  induction cs with
  | nil => intro m cat; simp [processCats]
  | cons c cs ih =>
    intro m cat
    simp only [processCats]
    refine le_trans ?_ (ih _ cat)
    by_cases h : cat = c
    · subst h
      rw [updateMap_self]
      exact padCat_len_mono _ _
    · rw [updateMap_ne _ _ _ _ h]

/-- Processing a type's essential categories leaves an empty queue empty. -/
theorem processCats_nil_pres (rooms : List String) (t : String) :
    ∀ (cs : List String) (m : String → List Furn) (cat : String),
      m cat = [] → processCats rooms t cs m cat = [] := by
  intro cs
  induction cs with
  | nil => intro m cat h; simpa [processCats] using h
  | cons c cs ih =>
    intro m cat h
    simp only [processCats]
    apply ih
    by_cases hc : cat = c
    · subst hc
      rw [updateMap_self, h, padCat_nil]
    · rw [updateMap_ne _ _ _ _ hc]
      exact h

/-- Processing a type's essential categories keeps a nonempty queue
nonempty. -/
theorem processCats_ne_nil (rooms : List String) (t : String)
    (cs : List String) (m : String → List Furn) (cat : String)
    (h : m cat ≠ []) : processCats rooms t cs m cat ≠ [] := by
  have hmono := processCats_len_mono rooms t cs m cat
  have hpos : 0 < (m cat).length := List.length_pos.mpr h
  exact List.ne_nil_of_length_pos (by omega)

/-- After processing a type, each of its essential categories with a
nonempty queue has at least as many instances as the type has rooms. -/
theorem processCats_reach (rooms : List String) (t : String) :
    ∀ (cs : List String) (m : String → List Furn) (cat : String),
      cat ∈ cs → m cat ≠ [] →
      countType rooms t ≤ (processCats rooms t cs m cat).length := by
  intro cs
  induction cs with
  | nil => intro m cat hmem; exact absurd hmem (List.not_mem_nil cat)
  | cons c cs ih =>
    intro m cat hmem hne
    simp only [processCats]
    by_cases hc : cat = c
    · subst hc
      refine le_trans ?_ (processCats_len_mono rooms t cs _ cat)
      rw [updateMap_self]
      exact padCat_len_ge _ _ hne
    · rcases List.mem_cons.mp hmem with h | h
      · exact absurd h hc
      · refine ih _ cat h ?_
        rw [updateMap_ne _ _ _ _ hc]
        exact hne

/-- Every element of a processed queue is an original element or flagged
essential. -/
theorem processCats_mem (rooms : List String) (t : String) :
    ∀ (cs : List String) (m : String → List Furn) (cat : String) (g : Furn),
      g ∈ processCats rooms t cs m cat → g ∈ m cat ∨ g.essential = true := by
  intro cs
  induction cs with
  | nil => intro m cat g h; exact Or.inl (by simpa [processCats] using h)
  | cons c cs ih =>
    intro m cat g h
    simp only [processCats] at h
    rcases ih _ cat g h with h2 | h2
    · by_cases hc : cat = c
      · subst hc
        rw [updateMap_self] at h2
        exact padCat_mem _ _ _ h2
      · rw [updateMap_ne _ _ _ _ hc] at h2
        exact Or.inl h2
    · exact Or.inr h2

/-- Iterating over the room types never shortens any queue. -/
theorem ensureTypes_len_mono (rooms : List String) :
    ∀ (ts : List String) (m : String → List Furn) (cat : String),
      (m cat).length ≤ (ensureTypes rooms ts m cat).length := by
  intro ts
  induction ts with
  | nil => intro m cat; simp [ensureTypes]
  | cons t0 ts ih =>
    intro m cat
    simp only [ensureTypes]
    exact le_trans (processCats_len_mono rooms t0 (essentialFor t0) m cat) (ih _ cat)

/-- Iterating over the room types leaves an empty queue empty. -/
theorem ensureTypes_nil_pres (rooms : List String) :
    ∀ (ts : List String) (m : String → List Furn) (cat : String),
      m cat = [] → ensureTypes rooms ts m cat = [] := by
  intro ts
  induction ts with
  | nil => intro m cat h; simpa [ensureTypes] using h
  | cons t0 ts ih =>
    intro m cat h
    simp only [ensureTypes]
    exact ih _ cat (processCats_nil_pres rooms t0 (essentialFor t0) m cat h)

/-- After the full iteration, each room type present in the processed list
has every nonempty essential category padded to at least its room count. -/
theorem ensureTypes_reach (rooms : List String) :
    ∀ (ts : List String) (m : String → List Furn) (t cat : String),
      t ∈ ts → cat ∈ essentialFor t → m cat ≠ [] →
      countType rooms t ≤ (ensureTypes rooms ts m cat).length := by
  intro ts
  induction ts with
  | nil => intro m t cat hmem; exact absurd hmem (List.not_mem_nil t)
  | cons t0 ts ih =>
    intro m t cat hmem hcat hne
    simp only [ensureTypes]
    by_cases ht : t = t0
    · subst ht
      refine le_trans ?_ (ensureTypes_len_mono rooms ts _ cat)
      exact processCats_reach rooms t (essentialFor t) m cat hcat hne
    · rcases List.mem_cons.mp hmem with h | h
      · exact absurd h ht
      · exact ih _ t cat h hcat
          (processCats_ne_nil rooms t0 (essentialFor t0) m cat hne)

/-- Every element after the full iteration is an original element or
flagged essential. -/
theorem ensureTypes_mem (rooms : List String) :
    ∀ (ts : List String) (m : String → List Furn) (cat : String) (g : Furn),
      g ∈ ensureTypes rooms ts m cat → g ∈ m cat ∨ g.essential = true := by
  intro ts
  induction ts with
  | nil => intro m cat g h; exact Or.inl (by simpa [ensureTypes] using h)
  | cons t0 ts ih =>
    intro m cat g h
    simp only [ensureTypes] at h
    rcases ih _ cat g h with h2 | h2
    · exact processCats_mem rooms t0 (essentialFor t0) m cat g h2
    · exact Or.inr h2

/-- A type occurring in the room list occurs in the deduplicated iteration
order. -/
theorem distinctTypes_mem (rooms : List String) (t : String) (h : t ∈ rooms) :
    t ∈ distinctTypes rooms := by
  suffices haux : ∀ (rs : List String) (acc : List String),
      t ∈ acc ∨ t ∈ rs →
      t ∈ rs.foldl (fun a x => if x ∈ a then a else a ++ [x]) acc by
    exact haux rooms [] (Or.inr h)
  intro rs
  induction rs with
  | nil =>
    intro acc hor
    rcases hor with hor | hor
    · simpa using hor
    · exact absurd hor (List.not_mem_nil t)
  | cons r rs ih =>
    intro acc hor
    simp only [List.foldl_cons]
    apply ih
    rcases hor with hor | hor
    · left
      by_cases hr : r ∈ acc
      · simpa [hr] using hor
      · simp only [hr, if_false]
        exact List.mem_append_left _ hor
    · rcases List.mem_cons.mp hor with rfl | hor2
      · left
        by_cases hr : t ∈ acc
        · simp [hr]
        · simp only [hr, if_false]
          exact List.mem_append_right _ (List.mem_singleton.mpr rfl)
      · exact Or.inr hor2

/-- C6: after `ensure_essential_furniture`, for every room type present
with room count N and every category essential for that type, a category
that started with at least one instance ends with a queue of length at
least N, every element of the final queue being an original instance or a
duplicate flagged essential; a category that started empty stays empty (no
duplication from nothing). -/
theorem essential_guarantee (rooms : List String) (protos : String → List Furn)
    (t cat : String) (ht : t ∈ rooms) (hcat : cat ∈ essentialFor t) :
    (protos cat = [] → ensureEssential rooms protos cat = []) ∧
    (protos cat ≠ [] →
      countType rooms t ≤ (ensureEssential rooms protos cat).length) ∧
    (∀ g ∈ ensureEssential rooms protos cat, g ∈ protos cat ∨ g.essential = true) := by
  refine ⟨?_, ?_, ?_⟩
  · intro hnil
    exact ensureTypes_nil_pres rooms _ protos cat hnil
  · intro hne
    exact ensureTypes_reach rooms _ protos t cat (distinctTypes_mem rooms t ht) hcat hne
  · intro g hg
    exact ensureTypes_mem rooms _ protos cat g hg

/-- A two-bathroom scenario stock: one sink prototype and nothing else. -/
def sinkOnlyStock : String → List Furn := fun c => if c = "sink" then [sinkProto] else []

/-- Witness for C6: with two bathrooms and one original sink, the sink
queue is padded to the room count 2 while the empty bathtub queue stays
empty. -/
theorem essential_guarantee_witness :
    ensureEssential ["bathroom", "bathroom"] sinkOnlyStock "bathtub" = [] ∧
    countType ["bathroom", "bathroom"] "bathroom" ≤
      (ensureEssential ["bathroom", "bathroom"] sinkOnlyStock "sink").length :=
  ⟨(essential_guarantee ["bathroom", "bathroom"] sinkOnlyStock "bathroom" "bathtub"
      (by decide) (by decide)).1 (by decide),
   (essential_guarantee ["bathroom", "bathroom"] sinkOnlyStock "bathroom" "sink"
      (by decide) (by decide)).2.1 (by decide)⟩
